import Mathlib

/-!
Shallow embedding of src/Condor3XY2LatLon_persistent.cpp.

The program is a persistent bridge process: startup (argument check,
registry lookup of the install directory, loading NaviCon.dll, resolving
three entry points, NaviConInit), then a READY handshake, then a loop that
reads lines from stdin, trims them, skips blank lines, stops on the exact
line EXIT, parses two floats, and prints either
fixed-8-decimal longitude-comma-latitude or an error line.

Modelling choices:
  - a text line is a List Char; stdin is a List of lines (getline frames);
  - the three native entry points of NaviCon.dll are opaque parameters of
    the model (a NativeWorld record), with 32-bit floats abstracted to Rat
    since the program only passes float values through from the parser to
    the printer;
  - C++ istream float extraction is modelled as num_get does it: skip
    stream whitespace, greedily accumulate a candidate field by a DFA over
    the float grammar, then convert the whole field, failing if the field
    is not entirely a valid decimal float;
  - printing with std::fixed and setprecision 8 is modelled as sign,
    integer digits, a dot and exactly eight fraction digits of the value
    rounded at the eighth decimal.
-/

namespace Condor3

/-- The whitespace set of the trim code in main: space, tab, CR, LF
(the find_first_not_of and find_last_not_of calls). -/
def isTrimWs (c : Char) : Bool :=
  c = ' ' || c = '\t' || c = '\r' || c = '\n'

/-- The whitespace set skipped by istream formatted extraction (isspace in
the default locale): space, tab, LF, vertical tab, form feed, CR. -/
def isStreamWs (c : Char) : Bool :=
  c = ' ' || c = '\t' || c = '\n' || c = Char.ofNat 11 || c = Char.ofNat 12 || c = '\r'

/-- line.erase of leading and trailing whitespace, as the two erase calls
at the top of the loop body do. -/
def trimLine (s : List Char) : List Char :=
  ((s.dropWhile isTrimWs).reverse.dropWhile isTrimWs).reverse

/-- The decimal digit character for n mod 10. -/
def digitChar (n : Nat) : Char :=
  Char.ofNat (48 + n % 10)

/-- Exactly k decimal digit characters, most significant first, showing
n mod 10 to the k. -/
def padDigits : Nat → Nat → List Char
  | 0, _ => []
  | k + 1, n => padDigits k (n / 10) ++ [digitChar n]

/-- Fuel-driven worker producing the decimal digits of n before acc. -/
def natDigitsGo : Nat → Nat → List Char → List Char
  | 0, _, acc => acc
  | fuel + 1, n, acc =>
    if n < 10 then digitChar n :: acc
    else natDigitsGo fuel (n / 10) (digitChar n :: acc)

/-- The decimal digits of n, most significant first, at least one digit. -/
def natDigits (n : Nat) : List Char :=
  natDigitsGo (n + 1) n []

/-- Rendering of a value by std::cout under std::fixed and
std::setprecision 8: optional minus sign, integer part, a dot, exactly
eight fraction digits, the magnitude rounded at the eighth decimal. The
rounded magnitude floor of abs q times ten to the eight plus one half is
computed on the numerator and denominator directly, as
(2 * abs num * 10 ^ 8 + den) / (2 * den) in Nat division. -/
def fmt8 (q : ℚ) : List Char :=
  let m : Nat := (2 * q.num.natAbs * 100000000 + q.den) / (2 * q.den)
  (if q.num < 0 then ['-'] else []) ++
    natDigits (m / 100000000) ++ '.' :: padDigits 8 (m % 100000000)

/-- Numeric value of a list of decimal digit characters, as accumulated
left to right. -/
def digitsToNat (ds : List Char) : Nat :=
  ds.foldl (fun a c => 10 * a + (c.toNat - 48)) 0

/-- States of the num_get accumulation DFA for a float field. -/
inductive FloatSt where
  | start
  | afterSign
  | intDigits
  | fracDigits
  | afterExpMark
  | afterExpSign
  | expDigits
deriving DecidableEq

/-- One step of the num_get accumulation DFA. The Bool records whether a
mantissa digit has been seen; an exponent mark is only accepted after one. -/
def floatStep : FloatSt → Bool → Char → Option (FloatSt × Bool)
  | .start, seen, c =>
    if c = '+' || c = '-' then some (.afterSign, seen)
    else if c.isDigit then some (.intDigits, true)
    else if c = '.' then some (.fracDigits, seen)
    else none
  | .afterSign, seen, c =>
    if c.isDigit then some (.intDigits, true)
    else if c = '.' then some (.fracDigits, seen)
    else none
  | .intDigits, seen, c =>
    if c.isDigit then some (.intDigits, true)
    else if c = '.' then some (.fracDigits, seen)
    else if (c = 'e' || c = 'E') && seen then some (.afterExpMark, seen)
    else none
  | .fracDigits, seen, c =>
    if c.isDigit then some (.fracDigits, true)
    else if (c = 'e' || c = 'E') && seen then some (.afterExpMark, seen)
    else none
  | .afterExpMark, seen, c =>
    if c = '+' || c = '-' then some (.afterExpSign, seen)
    else if c.isDigit then some (.expDigits, seen)
    else none
  | .afterExpSign, seen, c =>
    if c.isDigit then some (.expDigits, seen)
    else none
  | .expDigits, seen, c =>
    if c.isDigit then some (.expDigits, seen)
    else none

/-- Greedy accumulation of a float field: consume characters while the DFA
accepts them, returning the field and the unconsumed rest. -/
def accFloatGo : FloatSt → Bool → List Char → List Char × List Char
  | _, _, [] => ([], [])
  | st, seen, c :: cs =>
    match floatStep st seen c with
    | some (st', seen') =>
      let (f, r) := accFloatGo st' seen' cs
      (c :: f, r)
    | none => ([], c :: cs)

/-- Accumulate a float field from the start state. -/
def accFloat (s : List Char) : List Char × List Char :=
  accFloatGo .start false s

/-- Strip one optional leading sign, returning whether it was a minus. -/
def splitSign : List Char → Bool × List Char
  | '-' :: r => (true, r)
  | '+' :: r => (false, r)
  | s => (false, s)

/-- Conversion of a whole accumulated field, as strtof does in stage 3 of
num_get: optional sign, digits with an optional dot, an optional exponent;
none unless the entire field is a valid decimal float. -/
def evalFloatField (f : List Char) : Option ℚ :=
  let (neg, f1) := splitSign f
  let (ip, f2) := f1.span (fun c => Char.isDigit c)
  let (fp, f3) :=
    match f2 with
    | '.' :: r => r.span (fun c => Char.isDigit c)
    | _ => ([], f2)
  if ip.isEmpty && fp.isEmpty then none
  else
    let mant : Nat := digitsToNat ip * 10 ^ fp.length + digitsToNat fp
    let snum : Int := if neg then -(mant : Int) else (mant : Int)
    match f3 with
    | [] => some (mkRat snum (10 ^ fp.length))
    | c :: r =>
      if c = 'e' || c = 'E' then
        let (eneg, r1) := splitSign r
        let (ed, r2) := r1.span (fun c => Char.isDigit c)
        if ed.isEmpty || !r2.isEmpty then none
        else if eneg then some (mkRat snum (10 ^ fp.length * 10 ^ digitsToNat ed))
        else some (mkRat (snum * (10 ^ digitsToNat ed : Nat)) (10 ^ fp.length))
      else none

/-- One istream float extraction, iss into x: skip whitespace, accumulate
a field, convert it; on success the value and the unconsumed rest. -/
def extractFloat (s : List Char) : Option (ℚ × List Char) :=
  let s1 := s.dropWhile isStreamWs
  let (field, rest) := accFloat s1
  match evalFloatField field with
  | some q => some (q, rest)
  | none => none

/-- The extraction iss into x then into y of the loop body; anything left
after the second float is ignored, as stream extraction leaves it unread. -/
def extractTwoFloats (s : List Char) : Option (ℚ × ℚ) :=
  match extractFloat s with
  | none => none
  | some (x, r) =>
    match extractFloat r with
    | none => none
    | some (y, _) => some (x, y)

/-- The parsed form of one input line, the branch the loop body takes:
continue on a blank line, break on EXIT, error on a failed extraction,
convert on two extracted floats. -/
inductive Command where
  | ignore
  | exitRequested
  | malformed
  | convert (x y : ℚ)
deriving DecidableEq

/-- Classification of one raw line by the loop body: trim, test for empty,
test for the exact string EXIT, then attempt the two-float extraction. -/
def parseLine (line : List Char) : Command :=
  let t := trimLine line
  if t = [] then .ignore
  else if t = "EXIT".toList then .exitRequested
  else
    match extractTwoFloats t with
    | none => .malformed
    | some (x, y) => .convert x y

/-- The three NaviCon.dll entry points and the environment facts startup
depends on, all held fixed for one process run: the registry value, whether
LoadLibraryA succeeds, which GetProcAddress lookups succeed, and the three
native functions themselves (floats abstracted to Rat). -/
structure NativeWorld where
  installDir : Option (List Char)
  dllLoads : Bool
  hasInit : Bool
  hasLon : Bool
  hasLat : Bool
  naviConInit : List Char → Int
  xyToLon : ℚ → ℚ → ℚ
  xyToLat : ℚ → ℚ → ℚ

/-- The line printed for a failed extraction. -/
def errorLine : List Char := "ERROR: Invalid input format".toList

/-- The handshake line. -/
def readyLine : List Char := "READY".toList

/-- The success output line for one conversion: longitude then a comma then
latitude, both under fixed precision 8. -/
def convertLine (w : NativeWorld) (x y : ℚ) : List Char :=
  fmt8 (w.xyToLon x y) ++ ',' :: fmt8 (w.xyToLat x y)

/-- The stdout lines the while loop produces for a list of stdin lines:
blank lines print nothing, EXIT breaks, a failed extraction prints the
error line, a successful one prints the conversion line. -/
def sessionOut (w : NativeWorld) : List (List Char) → List (List Char)
  | [] => []
  | line :: rest =>
    match parseLine line with
    | .ignore => sessionOut w rest
    | .exitRequested => []
    | .malformed => errorLine :: sessionOut w rest
    | .convert x y => convertLine w x y :: sessionOut w rest

/-- The trace of native conversion calls the loop performs, in order: one
pair per successfully extracted line, nothing for the other branches. -/
def sessionCalls (w : NativeWorld) : List (List Char) → List (ℚ × ℚ)
  | [] => []
  | line :: rest =>
    match parseLine line with
    | .ignore => sessionCalls w rest
    | .exitRequested => []
    | .malformed => sessionCalls w rest
    | .convert x y => (x, y) :: sessionCalls w rest

/-- Whether pat occurs at the head of s. -/
def startsWithL : List Char → List Char → Bool
  | [], _ => true
  | _ :: _, [] => false
  | p :: ps, c :: cs => p = c && startsWithL ps cs

/-- Whether pat occurs anywhere in s, the test std::string find does when
compared against npos. -/
def hasSub (pat : List Char) : List Char → Bool
  | [] => startsWithL pat []
  | c :: rest => startsWithL pat (c :: rest) || hasSub pat rest

/-- The is_trn_path test on argv 1: the argument contains .trn, a
backslash, or a slash. -/
def isTrnPath (input1 : List Char) : Bool :=
  hasSub ".trn".toList input1 || input1.contains '\\' || input1.contains '/'

/-- The trn_name computation: a path-looking argument is used as is, a bare
scenery name is expanded under the Landscapes directory. -/
def trnName (rootDir input1 : List Char) : List Char :=
  if isTrnPath input1 then input1
  else rootDir ++ "\\Landscapes\\".toList ++ input1 ++ "\\".toList ++ input1 ++ ".trn".toList

/-- Result of one whole process run: stdout lines, stderr lines, exit
status. -/
structure ProcResult where
  stdout : List (List Char)
  stderr : List (List Char)
  exitCode : Nat
deriving DecidableEq

/-- The whole of main: the startup checks in source order, each failure
writing its diagnostic to stderr and returning EXIT_FAILURE, then the READY
line and the session loop, returning EXIT_SUCCESS. args is argv, argv 0
included, so argc is its length. -/
def runProcess (w : NativeWorld) (args : List (List Char)) (input : List (List Char)) :
    ProcResult :=
  if args.length ≠ 2 then
    { stdout := [],
      stderr := ["Usage: Condor3XY2LatLon_persistent.exe <scenery_or_trn_path>".toList,
                 "Example: Condor3XY2LatLon_persistent.exe AA3".toList,
                 "Or: Condor3XY2LatLon_persistent.exe C:\\path\\to\\AA3.trn".toList],
      exitCode := 1 }
  else
    match w.installDir with
    | none =>
      { stdout := [],
        stderr := ["ERROR: Could not find Condor3 installation directory in registry".toList],
        exitCode := 1 }
    | some rootDir =>
      if !w.dllLoads then
        { stdout := [],
          stderr := ["ERROR: Could not load ".toList ++ rootDir ++ "\\NaviCon.dll".toList],
          exitCode := 1 }
      else if !(w.hasInit && w.hasLon && w.hasLat) then
        { stdout := [],
          stderr := ["ERROR: Could not get NaviCon.dll function pointers".toList],
          exitCode := 1 }
      else
        let trn := trnName rootDir (args.getD 1 [])
        if w.naviConInit trn = 0 then
          { stdout := [],
            stderr := ["ERROR: NaviConInit failed for ".toList ++ trn],
            exitCode := 1 }
        else
          { stdout := readyLine :: sessionOut w input, stderr := [], exitCode := 0 }

/-- The single response line of one parsed command: none for a blank line
and for EXIT, the error line for a failed extraction, the conversion line
otherwise. -/
def respond (w : NativeWorld) : Command → Option (List Char)
  | .ignore => none
  | .exitRequested => none
  | .malformed => some errorLine
  | .convert x y => some (convertLine w x y)

/-- The input lines the loop actually processes: everything before the
first line classified as EXIT. -/
def takeUntilExit : List (List Char) → List (List Char)
  | [] => []
  | l :: rest =>
    if parseLine l = Command.exitRequested then []
    else l :: takeUntilExit rest

/-- The whitespace-separated tokens of a line, fuel-driven on its length. -/
def tokensGo : Nat → List Char → List (List Char)
  | 0, _ => []
  | fuel + 1, s =>
    match s.dropWhile isStreamWs with
    | [] => []
    | c :: cs =>
      let (t, r) := (c :: cs).span (fun d => !isStreamWs d)
      t :: tokensGo fuel r

/-- The whitespace-separated tokens of a line. -/
def tokens (s : List Char) : List (List Char) :=
  tokensGo s.length s

/-- Whether every startup check of main passes: exactly two argv entries,
the registry value present, the dll loading, all three entry points
resolving, and NaviConInit accepting the resolved trn path. -/
def startupOkB (w : NativeWorld) (args : List (List Char)) : Bool :=
  args.length == 2 &&
    match w.installDir with
    | none => false
    | some rootDir =>
      w.dllLoads && (w.hasInit && w.hasLon && w.hasLat) &&
        !(w.naviConInit (trnName rootDir (args.getD 1 [])) == 0)

/-- A concrete world for instantiating theorems: every startup step
succeeds and the two conversion entry points are the two projections. -/
def sampleWorld : NativeWorld :=
  { installDir := some "C:\\Condor3".toList, dllLoads := true,
    hasInit := true, hasLon := true, hasLat := true,
    naviConInit := fun _ => 1,
    xyToLon := fun x _ => x, xyToLat := fun _ y => y }

/-- State of the session loop between two getline calls: the lines not yet
read, the lines written so far, and whether the loop has ended. -/
structure LoopState where
  pending : List (List Char)
  emitted : List (List Char)
  finished : Bool
deriving DecidableEq

/-- One iteration of the while loop as a transition relation: end of input
ends the loop, a blank line writes nothing, EXIT breaks, a failed
extraction appends the error line, a successful one appends the conversion
line. -/
inductive SessionStep (w : NativeWorld) : LoopState → LoopState → Prop
  | eof (out : List (List Char)) :
      SessionStep w ⟨[], out, false⟩ ⟨[], out, true⟩
  | blank (l : List Char) (rest out : List (List Char)) :
      parseLine l = .ignore →
      SessionStep w ⟨l :: rest, out, false⟩ ⟨rest, out, false⟩
  | exitCmd (l : List Char) (rest out : List (List Char)) :
      parseLine l = .exitRequested →
      SessionStep w ⟨l :: rest, out, false⟩ ⟨rest, out, true⟩
  | malformedCmd (l : List Char) (rest out : List (List Char)) :
      parseLine l = .malformed →
      SessionStep w ⟨l :: rest, out, false⟩ ⟨rest, out ++ [errorLine], false⟩
  | convertCmd (l : List Char) (rest out : List (List Char)) (x y : ℚ) :
      parseLine l = .convert x y →
      SessionStep w ⟨l :: rest, out, false⟩ ⟨rest, out ++ [convertLine w x y], false⟩

/-- Shape of a field rendered under fixed precision 8: a single decimal
point with exactly eight digit characters after it. -/
def Fixed8 (s : List Char) : Prop :=
  ∃ a b, s = a ++ '.' :: b ∧ b.length = 8 ∧ (∀ c ∈ b, c.isDigit = true) ∧ '.' ∉ a

/-- A digit character is one of the ten digit characters. -/
theorem digitChar_cases (n : Nat) :
    digitChar n ∈ ['0', '1', '2', '3', '4', '5', '6', '7', '8', '9'] := by
  have h : n % 10 < 10 := Nat.mod_lt _ (by norm_num)
  unfold digitChar
  revert h
  generalize n % 10 = m
  intro h
  interval_cases m <;> decide

/-- Every digit character satisfies Char.isDigit. -/
theorem digitChar_isDigit (n : Nat) : (digitChar n).isDigit = true := by
  have h := digitChar_cases n
  revert h
  generalize digitChar n = c
  intro h
  fin_cases h <;> decide

/-- A digit character is neither the dot, the comma, the minus sign, nor
the letter R. -/
theorem digitChar_ne (n : Nat) :
    digitChar n ≠ '.' ∧ digitChar n ≠ ',' ∧ digitChar n ≠ '-' ∧ digitChar n ≠ 'R' := by
  have h := digitChar_cases n
  revert h
  generalize digitChar n = c
  intro h
  fin_cases h <;> exact ⟨by decide, by decide, by decide, by decide⟩

/-- padDigits always produces exactly k characters. -/
theorem padDigits_length (k n : Nat) : (padDigits k n).length = k := by
  induction k generalizing n with
  | zero => rfl
  | succ k ih => simp [padDigits, ih]

/-- Every character padDigits produces is a digit character. -/
theorem padDigits_mem {k n : Nat} {c : Char} (h : c ∈ padDigits k n) :
    ∃ d, c = digitChar d := by
  induction k generalizing n with
  | zero => simp [padDigits] at h
  | succ k ih =>
    simp only [padDigits, List.mem_append, List.mem_singleton] at h
    rcases h with h | h
    · exact ih h
    · exact ⟨n, h⟩

/-- Every character natDigitsGo produces is a digit character or was
already in the accumulator. -/
theorem natDigitsGo_mem {fuel n : Nat} {acc : List Char} {c : Char}
    (h : c ∈ natDigitsGo fuel n acc) : (∃ d, c = digitChar d) ∨ c ∈ acc := by
  induction fuel generalizing n acc with
  | zero => exact Or.inr h
  | succ fuel ih =>
    simp only [natDigitsGo] at h
    split at h
    · rcases List.mem_cons.mp h with h | h
      · exact Or.inl ⟨n, h⟩
      · exact Or.inr h
    · rcases ih h with h | h
      · exact Or.inl h
      · rcases List.mem_cons.mp h with h | h
        · exact Or.inl ⟨n, h⟩
        · exact Or.inr h

/-- Every character natDigits produces is a digit character. -/
theorem natDigits_mem {n : Nat} {c : Char} (h : c ∈ natDigits n) :
    ∃ d, c = digitChar d := by
  rcases natDigitsGo_mem h with h | h
  · exact h
  · simp at h

/-- Every character of a fixed-8 rendering is a digit character, the minus
sign, or the dot. -/
theorem fmt8_mem {q : ℚ} {c : Char} (h : c ∈ fmt8 q) :
    (∃ d, c = digitChar d) ∨ c = '-' ∨ c = '.' := by
  unfold fmt8 at h
  simp only [List.mem_append, List.mem_cons] at h
  rcases h with (h | h) | h | h
  · split at h
    · simp at h; exact Or.inr (Or.inl h)
    · simp at h
  · exact Or.inl (natDigits_mem h)
  · exact Or.inr (Or.inr h)
  · exact Or.inl (padDigits_mem h)

/-- A fixed-8 rendering has the Fixed8 shape: one dot, eight digits after
it. -/
theorem fmt8_fixed8 (q : ℚ) : Fixed8 (fmt8 q) := by
  refine ⟨(if q.num < 0 then ['-'] else []) ++
      natDigits ((2 * q.num.natAbs * 100000000 + q.den) / (2 * q.den) / 100000000),
    padDigits 8 ((2 * q.num.natAbs * 100000000 + q.den) / (2 * q.den) % 100000000),
    ?_, padDigits_length 8 _, ?_, ?_⟩
  · unfold fmt8
    simp [List.append_assoc]
  · intro c hc
    obtain ⟨d, rfl⟩ := padDigits_mem hc
    exact digitChar_isDigit d
  · intro hdot
    simp only [List.mem_append] at hdot
    rcases hdot with h | h
    · split at h <;> simp at h
    · obtain ⟨d, hd⟩ := natDigits_mem h
      exact (digitChar_ne d).1 hd.symm

/-- No character of a fixed-8 rendering is a comma. -/
theorem fmt8_no_comma (q : ℚ) : ',' ∉ fmt8 q := by
  intro h
  rcases fmt8_mem h with ⟨d, hd⟩ | h | h
  · exact (digitChar_ne d).2.1 hd.symm
  · simp at h
  · simp at h

/-- A line that trims nonempty, is not EXIT, and extracts two floats is
classified as a conversion command. -/
theorem parseLine_eq_convert {l : List Char} {x y : ℚ}
    (h1 : trimLine l ≠ []) (h2 : trimLine l ≠ "EXIT".toList)
    (h3 : extractTwoFloats (trimLine l) = some (x, y)) :
    parseLine l = Command.convert x y := by
  have h2' : trimLine l ≠ ['E', 'X', 'I', 'T'] := by simpa using h2
  unfold parseLine
  simp [h1, h2', h3]

/-- A line that trims nonempty, is not EXIT, and fails the two-float
extraction is classified as malformed. -/
theorem parseLine_eq_malformed {l : List Char}
    (h1 : trimLine l ≠ []) (h2 : trimLine l ≠ "EXIT".toList)
    (h3 : extractTwoFloats (trimLine l) = none) :
    parseLine l = Command.malformed := by
  have h2' : trimLine l ≠ ['E', 'X', 'I', 'T'] := by simpa using h2
  unfold parseLine
  simp [h1, h2', h3]

/-- A line that trims to exactly EXIT is classified as the exit command. -/
theorem parseLine_eq_exit {l : List Char} (h : trimLine l = "EXIT".toList) :
    parseLine l = Command.exitRequested := by
  unfold parseLine
  simp [h]

/-- The loop writes the conversion line and continues when a line is
classified as a conversion command. -/
theorem sessionOut_convert {w : NativeWorld} {l : List Char} {x y : ℚ}
    (rest : List (List Char)) (h : parseLine l = Command.convert x y) :
    sessionOut w (l :: rest) = convertLine w x y :: sessionOut w rest := by
  conv_lhs => unfold sessionOut
  rw [h]

/-- The loop writes the error line and continues when a line is classified
as malformed. -/
theorem sessionOut_malformed {w : NativeWorld} {l : List Char}
    (rest : List (List Char)) (h : parseLine l = Command.malformed) :
    sessionOut w (l :: rest) = errorLine :: sessionOut w rest := by
  conv_lhs => unfold sessionOut
  rw [h]

/-- The loop stops, writing nothing further, when a line is classified as
the exit command. -/
theorem sessionOut_exit {w : NativeWorld} {l : List Char}
    (rest : List (List Char)) (h : parseLine l = Command.exitRequested) :
    sessionOut w (l :: rest) = [] := by
  unfold sessionOut
  rw [h]

/-- The conversion line never coincides with the READY line: all its
characters are digits, minus, dot or comma, and READY contains an R. -/
theorem convertLine_ne_ready (w : NativeWorld) (x y : ℚ) :
    convertLine w x y ≠ readyLine := by
  intro h
  have hR : 'R' ∈ convertLine w x y := by
    rw [h]
    decide
  unfold convertLine at hR
  simp only [List.mem_append, List.mem_cons] at hR
  rcases hR with h1 | h1 | h1
  · rcases fmt8_mem h1 with ⟨d, hd⟩ | h2 | h2
    · exact (digitChar_ne d).2.2.2 hd.symm
    · simp at h2
    · simp at h2
  · simp at h1
  · rcases fmt8_mem h1 with ⟨d, hd⟩ | h2 | h2
    · exact (digitChar_ne d).2.2.2 hd.symm
    · simp at h2
    · simp at h2

/-- No line the session loop writes is the READY line. -/
theorem sessionOut_ne_ready (w : NativeWorld) (input : List (List Char)) :
    readyLine ∉ sessionOut w input := by
  induction input with
  | nil => simp [sessionOut]
  | cons l rest ih =>
    unfold sessionOut
    cases h : parseLine l with
    | ignore => exact ih
    | exitRequested => simp
    | malformed =>
      intro hmem
      rcases List.mem_cons.mp hmem with h1 | h1
      · exact absurd h1.symm (by decide)
      · exact ih h1
    | convert x y =>
      intro hmem
      rcases List.mem_cons.mp hmem with h1 | h1
      · exact convertLine_ne_ready w x y h1.symm
      · exact ih h1

/-- When every startup check passes, main prints READY, runs the loop, and
exits with status zero. -/
theorem runProcess_ok (w : NativeWorld) (args input : List (List Char))
    (h : startupOkB w args = true) :
    runProcess w args input =
      ⟨readyLine :: sessionOut w input, [], 0⟩ := by
  unfold startupOkB at h
  cases hd : w.installDir with
  | none =>
    rw [hd] at h
    simp at h
  | some rootDir =>
    rw [hd] at h
    rw [Bool.and_eq_true] at h
    obtain ⟨hlenB, h⟩ := h
    rw [Bool.and_eq_true] at h
    obtain ⟨h2, hinitB⟩ := h
    rw [Bool.and_eq_true] at h2
    obtain ⟨hdll, hptr⟩ := h2
    have hlen : args.length = 2 := by simpa using hlenB
    have hinit : ¬ w.naviConInit (trnName rootDir (args.getD 1 [])) = 0 := by
      simpa using hinitB
    unfold runProcess
    simp only [hd]
    rw [if_neg (by simp [hlen])]
    rw [if_neg (by simp [hdll])]
    rw [if_neg (by simp [hptr])]
    rw [if_neg hinit]

/-- When some startup check fails, main prints nothing to stdout, writes a
diagnostic to stderr, and exits with status one. -/
theorem runProcess_fail (w : NativeWorld) (args input : List (List Char))
    (h : startupOkB w args = false) :
    (runProcess w args input).stdout = [] ∧
      (runProcess w args input).stderr ≠ [] ∧
      (runProcess w args input).exitCode = 1 := by
  unfold runProcess
  by_cases hlen : args.length = 2
  · rw [if_neg (by simp [hlen])]
    cases hd : w.installDir with
    | none => simp
    | some rootDir =>
      simp only []
      by_cases hdll : w.dllLoads = true
      · rw [if_neg (by simp [hdll])]
        by_cases hptr : (w.hasInit && w.hasLon && w.hasLat) = true
        · rw [if_neg (by simp [hptr])]
          by_cases hinit : w.naviConInit (trnName rootDir (args.getD 1 [])) = 0
          · rw [if_pos hinit]
            simp
          · exfalso
            unfold startupOkB at h
            rw [hd] at h
            rw [Bool.and_assoc] at hptr
            rw [Bool.and_eq_true] at hptr
            obtain ⟨hi, hptr⟩ := hptr
            rw [Bool.and_eq_true] at hptr
            obtain ⟨hlo, hla⟩ := hptr
            have hlenB : (args.length == 2) = true := by simpa using hlen
            simp [hlenB, hdll, hi, hlo, hla] at h
            simp at hinit
            exact hinit h
        · rw [if_pos (by simp only [Bool.not_eq_true] at hptr; simp [hptr])]
          simp
      · rw [if_pos (by simp only [Bool.not_eq_true] at hdll; simp [hdll])]
        simp
  · rw [if_pos (by simpa using hlen)]
    simp

/-- The session step relation is deterministic: a state has at most one
successor. -/
theorem sessionStep_deterministic (w : NativeWorld) (s t1 t2 : LoopState)
    (h1 : SessionStep w s t1) (h2 : SessionStep w s t2) : t1 = t2 := by
  cases h1 with
  | eof out =>
    cases h2 with
    | eof => rfl
  | blank l rest out hp =>
    cases h2 with
    | blank _ _ _ _ => rfl
    | exitCmd _ _ _ hp2 => rw [hp] at hp2; cases hp2
    | malformedCmd _ _ _ hp2 => rw [hp] at hp2; cases hp2
    | convertCmd _ _ _ _ _ hp2 => rw [hp] at hp2; cases hp2
  | exitCmd l rest out hp =>
    cases h2 with
    | blank _ _ _ hp2 => rw [hp] at hp2; cases hp2
    | exitCmd _ _ _ _ => rfl
    | malformedCmd _ _ _ hp2 => rw [hp] at hp2; cases hp2
    | convertCmd _ _ _ _ _ hp2 => rw [hp] at hp2; cases hp2
  | malformedCmd l rest out hp =>
    cases h2 with
    | blank _ _ _ hp2 => rw [hp] at hp2; cases hp2
    | exitCmd _ _ _ hp2 => rw [hp] at hp2; cases hp2
    | malformedCmd _ _ _ _ => rfl
    | convertCmd _ _ _ _ _ hp2 => rw [hp] at hp2; cases hp2
  | convertCmd l rest out x y hp =>
    cases h2 with
    | blank _ _ _ hp2 => rw [hp] at hp2; cases hp2
    | exitCmd _ _ _ hp2 => rw [hp] at hp2; cases hp2
    | malformedCmd _ _ _ hp2 => rw [hp] at hp2; cases hp2
    | convertCmd _ _ _ x2 y2 hp2 =>
      rw [hp] at hp2
      cases hp2
      rfl

/-- C1: a line whose trimmed content is nonempty, is not EXIT, and yields
two extracted floats produces exactly one output line, the longitude and
latitude of the conversion functions joined by a comma, each field in
fixed-point decimal with exactly eight digits after its single decimal
point, and the loop continues with the remaining input. -/
theorem C1_valid_pair_one_fixed8_line (w : NativeWorld) (line : List Char)
    (rest : List (List Char)) (x y : ℚ)
    (h1 : trimLine line ≠ []) (h2 : trimLine line ≠ "EXIT".toList)
    (h3 : extractTwoFloats (trimLine line) = some (x, y)) :
    sessionOut w (line :: rest) = convertLine w x y :: sessionOut w rest ∧
    convertLine w x y = fmt8 (w.xyToLon x y) ++ ',' :: fmt8 (w.xyToLat x y) ∧
    Fixed8 (fmt8 (w.xyToLon x y)) ∧ Fixed8 (fmt8 (w.xyToLat x y)) ∧
    ',' ∉ fmt8 (w.xyToLon x y) ∧ ',' ∉ fmt8 (w.xyToLat x y) :=
  ⟨sessionOut_convert rest (parseLine_eq_convert h1 h2 h3), rfl,
   fmt8_fixed8 _, fmt8_fixed8 _, fmt8_no_comma _, fmt8_no_comma _⟩

/-- Witness for C1 at the documented example coordinates. -/
theorem C1_witness :
    sessionOut sampleWorld ["807440.44 100150.11".toList] =
      convertLine sampleWorld (mkRat 80744044 100) (mkRat 10015011 100) ::
        sessionOut sampleWorld [] ∧
    convertLine sampleWorld (mkRat 80744044 100) (mkRat 10015011 100) =
      fmt8 (sampleWorld.xyToLon (mkRat 80744044 100) (mkRat 10015011 100)) ++
        ',' :: fmt8 (sampleWorld.xyToLat (mkRat 80744044 100) (mkRat 10015011 100)) ∧
    Fixed8 (fmt8 (sampleWorld.xyToLon (mkRat 80744044 100) (mkRat 10015011 100))) ∧
    Fixed8 (fmt8 (sampleWorld.xyToLat (mkRat 80744044 100) (mkRat 10015011 100))) ∧
    ',' ∉ fmt8 (sampleWorld.xyToLon (mkRat 80744044 100) (mkRat 10015011 100)) ∧
    ',' ∉ fmt8 (sampleWorld.xyToLat (mkRat 80744044 100) (mkRat 10015011 100)) :=
  C1_valid_pair_one_fixed8_line sampleWorld "807440.44 100150.11".toList []
    (mkRat 80744044 100) (mkRat 10015011 100) (by decide) (by decide) (by decide)

/-- C2 counterexample: the line 1 2 3 is nonempty, is not EXIT, and has
three whitespace-separated tokens, not exactly two, yet the session
answers it with a conversion line, not a line beginning with ERROR:, since
stream extraction reads the first two floats and ignores the rest. -/
theorem C2_counterexample :
    trimLine "1 2 3".toList ≠ [] ∧
    trimLine "1 2 3".toList ≠ "EXIT".toList ∧
    (tokens (trimLine "1 2 3".toList)).length = 3 ∧
    sessionOut sampleWorld ["1 2 3".toList] = ["1.00000000,2.00000000".toList] ∧
    startsWithL "ERROR:".toList "1.00000000,2.00000000".toList = false := by
  decide

/-- C2 amended: a nonempty non-EXIT line on which the two-float extraction
fails produces exactly one line, which begins with ERROR:, and the session
continues with the remaining input. A line whose first two tokens do
extract as floats is answered with a conversion line even when trailing
content follows, so a token count above two is not by itself an error. -/
theorem C2_amended_error_line (w : NativeWorld) (l : List Char)
    (rest : List (List Char))
    (h1 : trimLine l ≠ []) (h2 : trimLine l ≠ "EXIT".toList)
    (h3 : extractTwoFloats (trimLine l) = none) :
    sessionOut w (l :: rest) = errorLine :: sessionOut w rest ∧
    startsWithL "ERROR:".toList errorLine = true :=
  ⟨sessionOut_malformed rest (parseLine_eq_malformed h1 h2 h3), by decide⟩

/-- Witness for the amended C2 at the line abc def. -/
theorem C2_witness :
    sessionOut sampleWorld ["abc def".toList, "1 2".toList] =
      errorLine :: sessionOut sampleWorld ["1 2".toList] ∧
    startsWithL "ERROR:".toList errorLine = true :=
  C2_amended_error_line sampleWorld "abc def".toList ["1 2".toList]
    (by decide) (by decide) (by decide)

/-- C3: whenever any startup check fails, the process exits with a nonzero
status, writes a diagnostic line to stderr, and its stdout is empty, so in
particular the READY line is never emitted. -/
theorem C3_startup_failure (w : NativeWorld) (args input : List (List Char))
    (h : startupOkB w args = false) :
    (runProcess w args input).exitCode ≠ 0 ∧
    (runProcess w args input).stderr ≠ [] ∧
    (runProcess w args input).stdout = [] ∧
    readyLine ∉ (runProcess w args input).stdout := by
  obtain ⟨h1, h2, h3⟩ := runProcess_fail w args input h
  refine ⟨?_, h2, h1, ?_⟩
  · rw [h3]
    exact one_ne_zero
  · rw [h1]
    exact List.not_mem_nil _

/-- Witness for C3: a run with a single argv entry, the wrong count. -/
theorem C3_witness :
    (runProcess sampleWorld ["p".toList] ["1 2".toList]).exitCode ≠ 0 ∧
    (runProcess sampleWorld ["p".toList] ["1 2".toList]).stderr ≠ [] ∧
    (runProcess sampleWorld ["p".toList] ["1 2".toList]).stdout = [] ∧
    readyLine ∉ (runProcess sampleWorld ["p".toList] ["1 2".toList]).stdout :=
  C3_startup_failure sampleWorld ["p".toList] ["1 2".toList] (by decide)

/-- C4: once startup succeeds the process exit status is zero for every
input stream, end of input included, and a line that trims to the exact
token EXIT produces no output line and stops the loop, so no later line is
processed. -/
theorem C4_graceful_termination (w : NativeWorld) (args input : List (List Char))
    (l : List Char) (rest : List (List Char))
    (hok : startupOkB w args = true) (hexit : trimLine l = "EXIT".toList) :
    (runProcess w args input).exitCode = 0 ∧
    sessionOut w (l :: rest) = [] := by
  refine ⟨?_, sessionOut_exit rest (parseLine_eq_exit hexit)⟩
  rw [runProcess_ok w args input hok]

/-- Witness for C4: EXIT surrounded by whitespace, with pending input after
it. -/
theorem C4_witness :
    (runProcess sampleWorld ["p".toList, "AA3".toList] []).exitCode = 0 ∧
    sessionOut sampleWorld ["  EXIT  ".toList, "1 2".toList] = [] :=
  C4_graceful_termination sampleWorld ["p".toList, "AA3".toList] []
    "  EXIT  ".toList ["1 2".toList] (by decide) (by decide)

/-- C5: on a successful run the stdout stream is the READY line first and
then only the per-line session responses, so READY appears exactly once and
precedes every input-derived line. -/
theorem C5_ready_once (w : NativeWorld) (args input : List (List Char))
    (h : startupOkB w args = true) :
    (runProcess w args input).stdout = readyLine :: sessionOut w input ∧
    ((runProcess w args input).stdout.count readyLine) = 1 := by
  have he := runProcess_ok w args input h
  have h0 : (sessionOut w input).count readyLine = 0 :=
    List.count_eq_zero.mpr (sessionOut_ne_ready w input)
  constructor
  · rw [he]
  · rw [he]
    simp [List.count_cons, h0]

/-- Witness for C5 on a run containing every kind of request line. -/
theorem C5_witness :
    (runProcess sampleWorld ["p".toList, "AA3".toList]
        ["1 2".toList, "".toList, "abc".toList]).stdout =
      readyLine :: sessionOut sampleWorld ["1 2".toList, "".toList, "abc".toList] ∧
    ((runProcess sampleWorld ["p".toList, "AA3".toList]
        ["1 2".toList, "".toList, "abc".toList]).stdout.count readyLine) = 1 :=
  C5_ready_once sampleWorld ["p".toList, "AA3".toList]
    ["1 2".toList, "".toList, "abc".toList] (by decide)

/-- C6: the session output is exactly the per-line responses, in input
order, of the lines before the first EXIT: nothing for a blank line, one
line for every other line, never reordered or interleaved. -/
theorem C6_response_order (w : NativeWorld) (lines : List (List Char)) :
    sessionOut w lines =
      (takeUntilExit lines).filterMap (fun l => respond w (parseLine l)) := by
  induction lines with
  | nil => rfl
  | cons l rest ih =>
    unfold sessionOut takeUntilExit
    cases h : parseLine l with
    | ignore => simp [h, respond, ih]
    | exitRequested => simp [h, respond]
    | malformed => simp [h, respond, ih]
    | convert x y => simp [h, respond, ih]

/-- C7: two lines that parse to the same conversion request receive
byte-for-byte the same response line, the conversion line of that pair,
whatever the surrounding input is. -/
theorem C7_idempotent_convert (w : NativeWorld) (l1 l2 : List Char) (x y : ℚ)
    (rest1 rest2 : List (List Char))
    (h1 : parseLine l1 = Command.convert x y)
    (h2 : parseLine l2 = Command.convert x y) :
    respond w (parseLine l1) = respond w (parseLine l2) ∧
    respond w (parseLine l1) = some (convertLine w x y) ∧
    sessionOut w (l1 :: rest1) = convertLine w x y :: sessionOut w rest1 ∧
    sessionOut w (l2 :: rest2) = convertLine w x y :: sessionOut w rest2 := by
  refine ⟨?_, ?_, sessionOut_convert rest1 h1, sessionOut_convert rest2 h2⟩
  · rw [h1, h2]
  · rw [h1]
    rfl

/-- Witness for C7: two different spellings of the same request. -/
theorem C7_witness :
    respond sampleWorld (parseLine "1 2".toList) =
      respond sampleWorld (parseLine "  1   2.0 ".toList) ∧
    respond sampleWorld (parseLine "1 2".toList) =
      some (convertLine sampleWorld 1 2) ∧
    sessionOut sampleWorld ["1 2".toList] =
      convertLine sampleWorld 1 2 :: sessionOut sampleWorld [] ∧
    sessionOut sampleWorld ["  1   2.0 ".toList, "EXIT".toList] =
      convertLine sampleWorld 1 2 :: sessionOut sampleWorld ["EXIT".toList] :=
  C7_idempotent_convert sampleWorld "1 2".toList "  1   2.0 ".toList 1 2
    [] ["EXIT".toList] (by decide) (by decide)

/-- C8: a malformed line produces exactly the error line and nothing else:
the native conversion functions are not invoked for it, the trace of engine
calls being exactly that of the remaining input, which is processed as if
the malformed line had not occurred. -/
theorem C8_malformed_no_engine_call (w : NativeWorld) (l : List Char)
    (rest : List (List Char)) (h : parseLine l = Command.malformed) :
    sessionOut w (l :: rest) = errorLine :: sessionOut w rest ∧
    sessionCalls w (l :: rest) = sessionCalls w rest := by
  refine ⟨sessionOut_malformed rest h, ?_⟩
  conv_lhs => unfold sessionCalls
  rw [h]

/-- Witness for C8 at the line xyz followed by a conversion. -/
theorem C8_witness :
    sessionOut sampleWorld ["xyz".toList, "1 2".toList] =
      errorLine :: sessionOut sampleWorld ["1 2".toList] ∧
    sessionCalls sampleWorld ["xyz".toList, "1 2".toList] =
      sessionCalls sampleWorld ["1 2".toList] :=
  C8_malformed_no_engine_call sampleWorld "xyz".toList ["1 2".toList] (by decide)

/-- C9 counterexample: the line 1 2 EXIT contains EXIT after trimming and
is not exactly EXIT, yet it is answered with a conversion line, not a line
beginning with ERROR:, because the two leading floats extract and the rest
is ignored. -/
theorem C9_counterexample :
    hasSub "EXIT".toList (trimLine "1 2 EXIT".toList) = true ∧
    trimLine "1 2 EXIT".toList ≠ "EXIT".toList ∧
    parseLine "1 2 EXIT".toList = Command.convert 1 2 ∧
    sessionOut sampleWorld ["1 2 EXIT".toList] = ["1.00000000,2.00000000".toList] ∧
    startsWithL "ERROR:".toList "1.00000000,2.00000000".toList = false := by
  decide

/-- C9 amended: a trimmed line that contains EXIT without being exactly
EXIT never ends the session and is never ignored: it falls through to
numeric parsing and is answered with exactly one line and the loop
continues; that line is the error line when the two-float extraction
fails, and a conversion line otherwise. -/
theorem C9_amended_no_exit (w : NativeWorld) (l : List Char)
    (rest : List (List Char))
    (hsub : hasSub "EXIT".toList (trimLine l) = true)
    (hne : trimLine l ≠ "EXIT".toList) :
    parseLine l ≠ Command.exitRequested ∧ parseLine l ≠ Command.ignore ∧
    (∃ out, sessionOut w (l :: rest) = out :: sessionOut w rest) ∧
    (extractTwoFloats (trimLine l) = none →
      sessionOut w (l :: rest) = errorLine :: sessionOut w rest) := by
  have hne' : trimLine l ≠ [] := by
    intro h0
    rw [h0] at hsub
    exact absurd hsub (by decide)
  cases hx : extractTwoFloats (trimLine l) with
  | none =>
    have hm := parseLine_eq_malformed hne' hne hx
    exact ⟨by simp [hm], by simp [hm],
      ⟨errorLine, sessionOut_malformed rest hm⟩,
      fun _ => sessionOut_malformed rest hm⟩
  | some p =>
    obtain ⟨x, y⟩ := p
    have hc := parseLine_eq_convert hne' hne hx
    refine ⟨by simp [hc], by simp [hc],
      ⟨convertLine w x y, sessionOut_convert rest hc⟩, fun h0 => ?_⟩
    simp at h0

/-- Witness for the amended C9 at the line EXIT now. -/
theorem C9_witness :
    parseLine "EXIT now".toList ≠ Command.exitRequested ∧
    parseLine "EXIT now".toList ≠ Command.ignore ∧
    (∃ out, sessionOut sampleWorld ["EXIT now".toList, "1 2".toList] =
      out :: sessionOut sampleWorld ["1 2".toList]) ∧
    (extractTwoFloats (trimLine "EXIT now".toList) = none →
      sessionOut sampleWorld ["EXIT now".toList, "1 2".toList] =
        errorLine :: sessionOut sampleWorld ["1 2".toList]) :=
  C9_amended_no_exit sampleWorld "EXIT now".toList ["1 2".toList]
    (by decide) (by decide)

/-- C10: the whole model is deterministic: the session loop step relation
allows at most one successor per state, and two runs of the process with
the same world, the same argv, and the same input lines have the same
stdout and the same exit status. -/
theorem C10_deterministic (w : NativeWorld) (args input : List (List Char)) :
    (∀ s t1 t2, SessionStep w s t1 → SessionStep w s t2 → t1 = t2) ∧
    (∀ r1 r2 : ProcResult, r1 = runProcess w args input →
      r2 = runProcess w args input →
      r1.stdout = r2.stdout ∧ r1.exitCode = r2.exitCode) := by
  refine ⟨fun s t1 t2 h1 h2 => sessionStep_deterministic w s t1 t2 h1 h2, ?_⟩
  rintro r1 r2 rfl rfl
  exact ⟨rfl, rfl⟩

/-- Witness for C10: two identical steps from a concrete state, and two
identical runs. -/
theorem C10_witness :
    (⟨[], [convertLine sampleWorld 1 2], false⟩ : LoopState) =
      ⟨[], [convertLine sampleWorld 1 2], false⟩ ∧
    ((runProcess sampleWorld ["p".toList, "AA3".toList] ["1 2".toList]).stdout =
      (runProcess sampleWorld ["p".toList, "AA3".toList] ["1 2".toList]).stdout ∧
     (runProcess sampleWorld ["p".toList, "AA3".toList] ["1 2".toList]).exitCode =
      (runProcess sampleWorld ["p".toList, "AA3".toList] ["1 2".toList]).exitCode) :=
  ⟨(C10_deterministic sampleWorld ["p".toList, "AA3".toList] ["1 2".toList]).1
      ⟨["1 2".toList], [], false⟩ _ _
      (SessionStep.convertCmd "1 2".toList [] [] 1 2 (by decide))
      (SessionStep.convertCmd "1 2".toList [] [] 1 2 (by decide)),
   (C10_deterministic sampleWorld ["p".toList, "AA3".toList] ["1 2".toList]).2
      _ _ rfl rfl⟩

end Condor3
